import Mathlib

/-!
Shallow embedding of the trading core of the JamesTradeBot repository
(src/trading_core.py), together with the interface boundary of its
collaborators (client.py, db_json.py, the indicator library).

Conventions:
* Python floats are modelled as rationals; indicator readings that can
  be NaN are modelled as Option values (none = NaN / missing).
* Timestamps are modelled as rationals with the usual order.
* Fallible collaborator calls (HTTP, base64 decoding, ISO parsing,
  order placement) are modelled as explicit oracle functions returning
  Option / Except values; a raised exception corresponds to none or
  to an error value, matching the try/except structure of the source.
-/

namespace JamesTrade

/-- Embeds the pandas slice rsi_s.iloc[-RSI_CONFIRM:] from
src/trading_core.py line 318.  In Python, -0 equals 0, so a zero
confirmation window selects the WHOLE series; for 0 < k the slice is
the last k elements, clamped to the whole list when k exceeds the
length (Python slices clamp). -/
def takeLast {α : Type} (k : Nat) (xs : List α) : List α :=
  if k = 0 then xs else xs.drop (xs.length - k)

/-- Embeds the rsi_confirm_buy computation of src/trading_core.py
lines 315-320: false unless RSI_CONFIRM <= len(rsi_s); then the last
RSI_CONFIRM readings must all be non-missing and all strictly below
the oversold threshold. -/
def rsi_confirm_buy (rsi : List (Option ℚ)) (k : Nat) (oversold : ℚ) : Bool :=
  if k ≤ rsi.length then
    (takeLast k rsi).all (fun x => x.isSome) &&
      (takeLast k rsi).all (fun x =>
        match x with
        | some v => decide (v < oversold)
        | none => false)
  else false

/-- Embeds the rsi_confirm_sell computation of src/trading_core.py
lines 316-321: same gating, readings all strictly above the
overbought threshold. -/
def rsi_confirm_sell (rsi : List (Option ℚ)) (k : Nat) (overbought : ℚ) : Bool :=
  if k ≤ rsi.length then
    (takeLast k rsi).all (fun x => x.isSome) &&
      (takeLast k rsi).all (fun x =>
        match x with
        | some v => decide (v > overbought)
        | none => false)
  else false

/-- Per-user effective trading settings (DEFAULTS merged with the
user settings map, src/trading_core.py lines 53-70 and 272). -/
structure Settings where
  rsiOversold : ℚ
  rsiOverbought : ℚ
  rsiConfirm : Nat
  macdThreshold : ℚ
  orderSizeUsd : ℚ
  orderPercent : ℚ
  minNotional : ℚ
  qtyPrecision : Nat
deriving DecidableEq

/-- Embeds buy_ok, src/trading_core.py line 343. -/
def buy_ok (s : Settings) (rsi : List (Option ℚ)) (trendUp : Bool) (macdHist : ℚ) : Bool :=
  rsi_confirm_buy rsi s.rsiConfirm s.rsiOversold && trendUp &&
    decide (macdHist > s.macdThreshold)

/-- Embeds sell_ok, src/trading_core.py line 344. -/
def sell_ok (s : Settings) (rsi : List (Option ℚ)) (trendUp : Bool) (macdHist : ℚ) : Bool :=
  rsi_confirm_sell rsi s.rsiConfirm s.rsiOverbought || !trendUp ||
    decide (macdHist < -s.macdThreshold)

/-- Spec-side formulation (following the words of the spec, for
comparison with the code-side buy_ok): the last RSI_CONFIRM readings
exist, are all valid, and are all strictly below the threshold. -/
def specLastAllBelow (rsi : List (Option ℚ)) (k : Nat) (threshold : ℚ) : Prop :=
  k ≤ rsi.length ∧ ∀ x ∈ takeLast k rsi, ∃ v, x = some v ∧ v < threshold

/-- Spec-side formulation: the last RSI_CONFIRM readings exist, are
all valid, and are all strictly above the threshold. -/
def specLastAllAbove (rsi : List (Option ℚ)) (k : Nat) (threshold : ℚ) : Prop :=
  k ≤ rsi.length ∧ ∀ x ∈ takeLast k rsi, ∃ v, x = some v ∧ v > threshold

/-- Spec-side OPEN verdict: ALL of strict RSI confirmation below
oversold, uptrend, and MACD histogram strictly above the threshold. -/
def specOpenVerdict (s : Settings) (rsi : List (Option ℚ)) (trendUp : Bool) (macdHist : ℚ) : Prop :=
  specLastAllBelow rsi s.rsiConfirm s.rsiOversold ∧ trendUp = true ∧
    macdHist > s.macdThreshold

/-- Spec-side CLOSE verdict: ANY of strict RSI confirmation above
overbought, downtrend, or MACD histogram strictly below the negated
threshold. -/
def specCloseVerdict (s : Settings) (rsi : List (Option ℚ)) (trendUp : Bool) (macdHist : ℚ) : Prop :=
  specLastAllAbove rsi s.rsiConfirm s.rsiOverbought ∨ trendUp = false ∨
    macdHist < -s.macdThreshold

lemma rsi_confirm_buy_iff (rsi : List (Option ℚ)) (k : Nat) (os : ℚ) :
    rsi_confirm_buy rsi k os = true ↔ specLastAllBelow rsi k os := by
  unfold rsi_confirm_buy specLastAllBelow
  by_cases hk : k ≤ rsi.length
  · rw [if_pos hk, Bool.and_eq_true]
    simp only [List.all_eq_true]
    constructor
    · rintro ⟨hsome, hlt⟩
      refine ⟨hk, fun x hx => ?_⟩
      rcases Option.isSome_iff_exists.mp (hsome x hx) with ⟨v, hv⟩
      refine ⟨v, hv, ?_⟩
      have := hlt x hx
      rw [hv] at this
      exact of_decide_eq_true this
    · rintro ⟨-, h⟩
      constructor
      · intro x hx
        rcases h x hx with ⟨v, hv, -⟩
        rw [hv]; rfl
      · intro x hx
        rcases h x hx with ⟨v, hv, hlt⟩
        rw [hv]
        exact decide_eq_true hlt
  · rw [if_neg hk]
    constructor
    · intro h
      exact (Bool.false_ne_true h).elim
    · rintro ⟨hk2, -⟩
      exact absurd hk2 hk

lemma rsi_confirm_sell_iff (rsi : List (Option ℚ)) (k : Nat) (ob : ℚ) :
    rsi_confirm_sell rsi k ob = true ↔ specLastAllAbove rsi k ob := by
  unfold rsi_confirm_sell specLastAllAbove
  by_cases hk : k ≤ rsi.length
  · rw [if_pos hk, Bool.and_eq_true]
    simp only [List.all_eq_true]
    constructor
    · rintro ⟨hsome, hgt⟩
      refine ⟨hk, fun x hx => ?_⟩
      rcases Option.isSome_iff_exists.mp (hsome x hx) with ⟨v, hv⟩
      refine ⟨v, hv, ?_⟩
      have := hgt x hx
      rw [hv] at this
      exact of_decide_eq_true this
    · rintro ⟨-, h⟩
      constructor
      · intro x hx
        rcases h x hx with ⟨v, hv, -⟩
        rw [hv]; rfl
      · intro x hx
        rcases h x hx with ⟨v, hv, hgt⟩
        rw [hv]
        exact decide_eq_true hgt
  · rw [if_neg hk]
    constructor
    · intro h
      exact (Bool.false_ne_true h).elim
    · rintro ⟨hk2, -⟩
      exact absurd hk2 hk

/-- C1: the signal decision is asymmetric exactly as specified.  For
every indicator snapshot, the code-side OPEN verdict (buy_ok) holds
if and only if ALL three spec conditions hold (last RSI_CONFIRM
readings all strictly below oversold, trend up, MACD histogram
strictly above the threshold), and the code-side CLOSE verdict
(sell_ok) holds if and only if ANY of the three spec conditions holds
(last RSI_CONFIRM readings all strictly above overbought, trend not
up, MACD histogram strictly below the negated threshold). -/
theorem c1_signal_asymmetry (s : Settings) (rsi : List (Option ℚ))
    (trendUp : Bool) (macdHist : ℚ) :
    (buy_ok s rsi trendUp macdHist = true ↔
      specOpenVerdict s rsi trendUp macdHist) ∧
    (sell_ok s rsi trendUp macdHist = true ↔
      specCloseVerdict s rsi trendUp macdHist) := by
  constructor
  · unfold buy_ok specOpenVerdict
    rw [Bool.and_eq_true, Bool.and_eq_true]
    rw [rsi_confirm_buy_iff]
    constructor
    · rintro ⟨⟨h1, h2⟩, h3⟩
      exact ⟨h1, h2, of_decide_eq_true h3⟩
    · rintro ⟨h1, h2, h3⟩
      exact ⟨⟨h1, h2⟩, decide_eq_true h3⟩
  · unfold sell_ok specCloseVerdict
    rw [Bool.or_eq_true, Bool.or_eq_true]
    rw [rsi_confirm_sell_iff]
    constructor
    · rintro ((h | h) | h)
      · exact Or.inl h
      · exact Or.inr (Or.inl (by simpa using h))
      · exact Or.inr (Or.inr (of_decide_eq_true h))
    · rintro (h | h | h)
      · exact Or.inl (Or.inl h)
      · exact Or.inl (Or.inr (by simp [h]))
      · exact Or.inr (decide_eq_true h)

/-- Witness for C1 at a concrete indicator snapshot. -/
theorem c1_signal_asymmetry_witness :
    (buy_ok ⟨35, 65, 1, 0, 0, 5, 5, 6⟩ [some 30] true 1 = true ↔
      specOpenVerdict ⟨35, 65, 1, 0, 0, 5, 5, 6⟩ [some 30] true 1) ∧
    (sell_ok ⟨35, 65, 1, 0, 0, 5, 5, 6⟩ [some 30] true 1 = true ↔
      specCloseVerdict ⟨35, 65, 1, 0, 0, 5, 5, 6⟩ [some 30] true 1) :=
  c1_signal_asymmetry ⟨35, 65, 1, 0, 0, 5, 5, 6⟩ [some 30] true 1

/-- A stored position, src/trading_core.py line 374:
positions[symbol] = (side LONG, entry_price, qty, ts). -/
structure Position where
  side : String
  entryPrice : ℚ
  qty : ℚ
  ts : ℚ
deriving DecidableEq

/-- Result of a call to client.place_order (client.py lines 149-168):
either the raw API response, or the message of a raised exception
(stored by the caller as an error payload, src/trading_core.py
lines 369-370 and 395-396). -/
inductive OrderResult where
  | resp (r : String)
  | err (e : String)
deriving DecidableEq

/-- A trade record as built at src/trading_core.py lines 356-364 and
382-390: orderResp is present exactly when client.place_order was
invoked (none in dry-run mode or when the client capability is
missing).  pnl is always recorded as 0. -/
structure Trade where
  userId : Int
  symbol : String
  side : String
  price : ℚ
  qty : ℚ
  pnl : ℚ
  ts : ℚ
  orderResp : Option OrderResult
deriving DecidableEq

/-- Execution-environment flags for one per-symbol unit of work:
DRY_RUN (src/trading_core.py line 38) and whether a client with a
place_order capability exists (the guard of lines 365 and 391). -/
structure StepConfig where
  dryRun : Bool
  hasPlaceOrder : Bool
deriving DecidableEq

/-- The per-cycle inputs of one position-machine transition as
computed by lines 323-344 of src/trading_core.py: the two verdicts,
the current price, the freshly sized order quantity and the current
timestamp. -/
structure StepInput where
  buyOk : Bool
  sellOk : Bool
  price : ℚ
  qty : ℚ
  now : ℚ
deriving DecidableEq

/-- Outcome of one per-symbol transition: the new stored position,
the trades appended to the ledger by db.append_trade, and the orders
actually sent through client.place_order. -/
structure StepResult where
  pos : Option Position
  trades : List Trade
  orders : List (String × ℚ × String)
deriving DecidableEq

/-- Builds the trade record of src/trading_core.py lines 356-372 and
382-398: the dict literal, then order_resp is attached when (and only
when) the order is actually placed, that is when DRY_RUN is off, a
client exists and it has a place_order capability. -/
def mkTrade (cfg : StepConfig) (po : String → ℚ → String → Except String String)
    (uid : Int) (symbol recordSide poSide : String) (price qty now : ℚ) : Trade :=
  let base : Trade :=
    { userId := uid, symbol := symbol, side := recordSide, price := price,
      qty := qty, pnl := 0, ts := now, orderResp := none }
  if !cfg.dryRun && cfg.hasPlaceOrder then
    match po poSide qty symbol with
    | Except.ok r => { base with orderResp := some (OrderResult.resp r) }
    | Except.error e => { base with orderResp := some (OrderResult.err e) }
  else base

/-- The client.place_order calls actually issued by one transition
(empty in dry-run mode or when the capability is missing). -/
def ordersFor (cfg : StepConfig) (poSide : String) (qty : ℚ) (symbol : String) :
    List (String × ℚ × String) :=
  if !cfg.dryRun && cfg.hasPlaceOrder then [(poSide, qty, symbol)] else []

/-- Embeds the BUY/SELL state machine of src/trading_core.py lines
352-404 for one (user, symbol) pair.  po is the place_order
collaborator: ok = API response, error = raised exception. -/
def iterStep (cfg : StepConfig) (po : String → ℚ → String → Except String String)
    (uid : Int) (symbol : String) (s : Settings) (inp : StepInput)
    (pos : Option Position) : StepResult :=
  match pos with
  | none =>
    if inp.buyOk && decide (inp.qty > 0) &&
        decide (inp.qty * inp.price ≥ s.minNotional) then
      { pos := some { side := "LONG", entryPrice := inp.price, qty := inp.qty,
                      ts := inp.now },
        trades := [mkTrade cfg po uid symbol "BUY" "Buy" inp.price inp.qty inp.now],
        orders := ordersFor cfg "Buy" inp.qty symbol }
    else
      { pos := none, trades := [], orders := [] }
  | some p =>
    if inp.sellOk then
      if decide (p.qty * inp.price ≥ s.minNotional) && decide (p.qty > 0) then
        { pos := none,
          trades := [mkTrade cfg po uid symbol "SELL" "Sell" inp.price p.qty inp.now],
          orders := ordersFor cfg "Sell" p.qty symbol }
      else
        { pos := none, trades := [], orders := [] }
    else
      { pos := some p, trades := [], orders := [] }

lemma mkTrade_side (cfg : StepConfig)
    (po : String → ℚ → String → Except String String) (uid : Int)
    (symbol rs ps : String) (price qty now : ℚ) :
    (mkTrade cfg po uid symbol rs ps price qty now).side = rs := by
  unfold mkTrade
  by_cases h : (!cfg.dryRun && cfg.hasPlaceOrder) = true
  · rw [if_pos h]
    cases po ps qty symbol <;> rfl
  · rw [if_neg h]

lemma mkTrade_orderResp_none_iff (cfg : StepConfig)
    (po : String → ℚ → String → Except String String) (uid : Int)
    (symbol rs ps : String) (price qty now : ℚ) :
    (mkTrade cfg po uid symbol rs ps price qty now).orderResp = none ↔
      (!cfg.dryRun && cfg.hasPlaceOrder) = false := by
  unfold mkTrade
  by_cases h : (!cfg.dryRun && cfg.hasPlaceOrder) = true
  · rw [if_pos h]
    cases po ps qty symbol
    all_goals simp [h]
  · rw [if_neg h]
    simp [Bool.eq_false_iff.mpr h]

lemma ordersFor_eq_nil_iff (cfg : StepConfig) (ps : String) (qty : ℚ)
    (symbol : String) :
    ordersFor cfg ps qty symbol = [] ↔ (!cfg.dryRun && cfg.hasPlaceOrder) = false := by
  unfold ordersFor
  by_cases h : (!cfg.dryRun && cfg.hasPlaceOrder) = true
  · rw [if_pos h]
    simp [h]
  · rw [if_neg h]
    simp [Bool.eq_false_iff.mpr h]

lemma iterStep_none_open (cfg : StepConfig)
    (po : String → ℚ → String → Except String String) (uid : Int)
    (symbol : String) (s : Settings) (inp : StepInput)
    (h1 : inp.buyOk = true) (h2 : 0 < inp.qty)
    (h3 : s.minNotional ≤ inp.qty * inp.price) :
    iterStep cfg po uid symbol s inp none =
      { pos := some { side := "LONG", entryPrice := inp.price, qty := inp.qty,
                      ts := inp.now },
        trades := [mkTrade cfg po uid symbol "BUY" "Buy" inp.price inp.qty inp.now],
        orders := ordersFor cfg "Buy" inp.qty symbol } := by
  unfold iterStep
  rw [if_pos]
  rw [h1]
  simp [h2, h3, ge_iff_le]

lemma iterStep_none_noopen (cfg : StepConfig)
    (po : String → ℚ → String → Except String String) (uid : Int)
    (symbol : String) (s : Settings) (inp : StepInput)
    (h : ¬(inp.buyOk = true ∧ 0 < inp.qty ∧ s.minNotional ≤ inp.qty * inp.price)) :
    iterStep cfg po uid symbol s inp none =
      { pos := none, trades := [], orders := [] } := by
  unfold iterStep
  rw [if_neg]
  intro hcond
  rw [Bool.and_eq_true, Bool.and_eq_true] at hcond
  rcases hcond with ⟨⟨hb, h2⟩, h3⟩
  exact h ⟨hb, of_decide_eq_true h2, of_decide_eq_true h3⟩

lemma iterStep_long_noclose (cfg : StepConfig)
    (po : String → ℚ → String → Except String String) (uid : Int)
    (symbol : String) (s : Settings) (inp : StepInput) (p : Position)
    (h : inp.sellOk = false) :
    iterStep cfg po uid symbol s inp (some p) =
      { pos := some p, trades := [], orders := [] } := by
  unfold iterStep
  rw [h]
  rfl

lemma iterStep_long_close (cfg : StepConfig)
    (po : String → ℚ → String → Except String String) (uid : Int)
    (symbol : String) (s : Settings) (inp : StepInput) (p : Position)
    (h : inp.sellOk = true) (h2 : s.minNotional ≤ p.qty * inp.price)
    (h3 : 0 < p.qty) :
    iterStep cfg po uid symbol s inp (some p) =
      { pos := none,
        trades := [mkTrade cfg po uid symbol "SELL" "Sell" inp.price p.qty inp.now],
        orders := ordersFor cfg "Sell" p.qty symbol } := by
  unfold iterStep
  rw [h]
  simp [h2, h3, ge_iff_le]

lemma iterStep_long_silent (cfg : StepConfig)
    (po : String → ℚ → String → Except String String) (uid : Int)
    (symbol : String) (s : Settings) (inp : StepInput) (p : Position)
    (h : inp.sellOk = true)
    (h2 : p.qty * inp.price < s.minNotional ∨ ¬ 0 < p.qty) :
    iterStep cfg po uid symbol s inp (some p) =
      { pos := none, trades := [], orders := [] } := by
  have hg : ¬ (s.minNotional ≤ p.qty * inp.price ∧ 0 < p.qty) := by
    rcases h2 with h2 | h2
    · rintro ⟨ha, -⟩
      exact absurd ha (not_le.mpr h2)
    · rintro ⟨-, hb⟩
      exact h2 hb
  simp only [iterStep, h, if_true, Bool.and_eq_true, decide_eq_true_eq, ge_iff_le]
  rw [if_neg hg]

/-- The per-user positions dictionary u._positions: symbol to
Position-or-absent (a Python dict key set to None and a missing key
both read back as None through positions.get, line 352). -/
def PosMap : Type := String → Option Position

/-- One transition applied to the whole positions dictionary: only
the key of the processed symbol is written (line 374 / 400 / 404). -/
def applyStepToPositions (cfg : StepConfig)
    (po : String → ℚ → String → Except String String) (uid : Int)
    (symbol : String) (s : Settings) (inp : StepInput) (pm : PosMap) : PosMap :=
  Function.update pm symbol (iterStep cfg po uid symbol s inp (pm symbol)).pos

/-- The trace of a sequence of iteration cycles for one
(user, symbol) pair: each entry records the position before the
cycle, the cycle inputs, and the transition outcome. -/
def evolveTrace (cfg : StepConfig)
    (po : String → ℚ → String → Except String String) (uid : Int)
    (symbol : String) (s : Settings) :
    List StepInput → Option Position → List (Option Position × StepInput × StepResult)
  | [], _ => []
  | inp :: rest, pos =>
    (pos, inp, iterStep cfg po uid symbol s inp pos) ::
      evolveTrace cfg po uid symbol s rest
        (iterStep cfg po uid symbol s inp pos).pos

lemma evolveTrace_mem_step (cfg : StepConfig)
    (po : String → ℚ → String → Except String String) (uid : Int)
    (symbol : String) (s : Settings) (inputs : List StepInput)
    (pos0 : Option Position) (e : Option Position × StepInput × StepResult)
    (he : e ∈ evolveTrace cfg po uid symbol s inputs pos0) :
    e.2.2 = iterStep cfg po uid symbol s e.2.1 e.1 := by
  induction inputs generalizing pos0 with
  | nil => cases he
  | cons inp rest ih =>
    rw [evolveTrace] at he
    rcases List.mem_cons.mp he with h | h
    · subst h; rfl
    · exact ih _ h

/-- Embeds floor_qty, src/trading_core.py lines 110-117: non-positive
quantities floor to 0; otherwise multiply by 10^prec, take the
mathematical floor, and divide back.  (The try/except of the source
can only fire on a non-numeric argument, which the rational model
excludes by typing.) -/
def floor_qty (qty : ℚ) (prec : Nat) : ℚ :=
  if qty ≤ 0 then 0
  else ((Int.floor (qty * (10 : ℚ) ^ prec) : ℤ) : ℚ) / (10 : ℚ) ^ prec

/-- Embeds the balance estimate of src/trading_core.py lines 325-330:
a missing client, a raised exception and a None result all default
the balance to 0.0, so an unknown balance reads as zero downstream. -/
def usdtBalance (balOpt : Option ℚ) : ℚ := balOpt.getD 0

/-- Embeds the order-size selection of src/trading_core.py lines
333-337: a configured positive fixed USD size is capped at the
balance when the balance is positive; otherwise the configured
percentage of the balance is used (0 when the balance is not
positive). -/
def order_usd (s : Settings) (balOpt : Option ℚ) : ℚ :=
  if 0 < s.orderSizeUsd then
    if 0 < usdtBalance balOpt then min s.orderSizeUsd (usdtBalance balOpt)
    else s.orderSizeUsd
  else
    if 0 < usdtBalance balOpt then usdtBalance balOpt * (s.orderPercent / 100)
    else 0

/-- Embeds raw_qty, src/trading_core.py line 339. -/
def raw_qty (s : Settings) (balOpt : Option ℚ) (price : ℚ) : ℚ :=
  if 0 < price then order_usd s balOpt / price else 0

/-- Embeds the qty computation of src/trading_core.py line 341. -/
def sized_qty (s : Settings) (balOpt : Option ℚ) (price : ℚ) : ℚ :=
  floor_qty (raw_qty s balOpt price) s.qtyPrecision

lemma rsi_confirm_buy_false_of (rsi : List (Option ℚ)) (k : Nat) (os : ℚ)
    (h : rsi.length < k ∨ ∃ x ∈ takeLast k rsi, x = none) :
    rsi_confirm_buy rsi k os = false := by
  rcases h with h | ⟨x, hx, hxn⟩
  · unfold rsi_confirm_buy
    rw [if_neg (not_le.mpr h)]
  · unfold rsi_confirm_buy
    by_cases hk : k ≤ rsi.length
    · rw [if_pos hk]
      have hall : (takeLast k rsi).all (fun x => x.isSome) = false := by
        cases hval : (takeLast k rsi).all (fun x => x.isSome) with
        | false => rfl
        | true =>
          exfalso
          have := List.all_eq_true.mp hval x hx
          rw [hxn] at this
          exact Bool.false_ne_true this
      rw [hall]
      rfl
    · rw [if_neg hk]

lemma rsi_confirm_sell_false_of (rsi : List (Option ℚ)) (k : Nat) (ob : ℚ)
    (h : rsi.length < k ∨ ∃ x ∈ takeLast k rsi, x = none) :
    rsi_confirm_sell rsi k ob = false := by
  rcases h with h | ⟨x, hx, hxn⟩
  · unfold rsi_confirm_sell
    rw [if_neg (not_le.mpr h)]
  · unfold rsi_confirm_sell
    by_cases hk : k ≤ rsi.length
    · rw [if_pos hk]
      have hall : (takeLast k rsi).all (fun x => x.isSome) = false := by
        cases hval : (takeLast k rsi).all (fun x => x.isSome) with
        | false => rfl
        | true =>
          exfalso
          have := List.all_eq_true.mp hval x hx
          rw [hxn] at this
          exact Bool.false_ne_true this
      rw [hall]
      rfl
    · rw [if_neg hk]

/-- Concrete settings used by witnesses: oversold 35, overbought 65,
confirmation window 1, MACD threshold 0, percentage sizing with
ORDER_PERCENT 5, minimum notional 5, precision 6. -/
def sampleSettings : Settings :=
  { rsiOversold := 35, rsiOverbought := 65, rsiConfirm := 1,
    macdThreshold := 0, orderSizeUsd := 0, orderPercent := 5,
    minNotional := 5, qtyPrecision := 6 }

/-- Concrete settings with a fixed 10 USD order size. -/
def sampleSettingsFixed : Settings :=
  { rsiOversold := 35, rsiOverbought := 65, rsiConfirm := 1,
    macdThreshold := 0, orderSizeUsd := 10, orderPercent := 5,
    minNotional := 5, qtyPrecision := 3 }

/-- Concrete dry-run environment used by witnesses. -/
def sampleCfg : StepConfig := { dryRun := true, hasPlaceOrder := false }

/-- Concrete always-succeeding order-placement collaborator. -/
def samplePo : String → ℚ → String → Except String String :=
  fun _ _ _ => Except.ok "filled"

/-- C2: along every sequence of iteration steps for one
(user, symbol) pair, a BUY is only ever emitted from the flat state;
an OPEN verdict while already LONG (sell verdict off) is a no-op; an
OPEN transition appends exactly one trade, of side BUY, and installs
a position; a non-silent CLOSE transition appends exactly one trade,
of side SELL, and clears the position; and a transition writes only
its own symbol key of the positions map, whose values are single
Options, so a (user, symbol) pair never holds two concurrent
positions. -/
theorem c2_position_invariant (cfg : StepConfig)
    (po : String → ℚ → String → Except String String) (uid : Int)
    (symbol : String) (s : Settings) (inputs : List StepInput)
    (pos0 : Option Position) :
    (∀ e ∈ evolveTrace cfg po uid symbol s inputs pos0,
      (∀ p, e.1 = some p → ∀ t ∈ e.2.2.trades, ¬ t.side = "BUY") ∧
      (∀ p, e.1 = some p → e.2.1.sellOk = false →
        e.2.2 = { pos := some p, trades := [], orders := [] }) ∧
      (e.1 = none → e.2.1.buyOk = true → 0 < e.2.1.qty →
        s.minNotional ≤ e.2.1.qty * e.2.1.price →
        e.2.2.trades.length = 1 ∧ (∀ t ∈ e.2.2.trades, t.side = "BUY") ∧
        e.2.2.pos.isSome = true) ∧
      (∀ p, e.1 = some p → e.2.1.sellOk = true →
        s.minNotional ≤ p.qty * e.2.1.price → 0 < p.qty →
        e.2.2.trades.length = 1 ∧ (∀ t ∈ e.2.2.trades, t.side = "SELL") ∧
        e.2.2.pos = none)) ∧
    (∀ (pm : PosMap) (inp : StepInput) (sym2 : String), ¬ sym2 = symbol →
      applyStepToPositions cfg po uid symbol s inp pm sym2 = pm sym2) := by
  constructor
  · intro e he
    have hstep := evolveTrace_mem_step cfg po uid symbol s inputs pos0 e he
    refine ⟨?_, ?_, ?_, ?_⟩
    · rintro p hp t ht
      rw [hstep, hp] at ht
      cases hsb : e.2.1.sellOk with
      | false =>
        rw [iterStep_long_noclose cfg po uid symbol s e.2.1 p hsb] at ht
        exact absurd ht (List.not_mem_nil t)
      | true =>
        by_cases hbig : s.minNotional ≤ p.qty * e.2.1.price ∧ 0 < p.qty
        · rw [iterStep_long_close cfg po uid symbol s e.2.1 p hsb hbig.1 hbig.2] at ht
          have hts := List.mem_singleton.mp ht
          subst hts
          rw [mkTrade_side]
          decide
        · have h2 : p.qty * e.2.1.price < s.minNotional ∨ ¬ 0 < p.qty := by
            rcases not_and_or.mp hbig with h | h
            · exact Or.inl (not_le.mp h)
            · exact Or.inr h
          rw [iterStep_long_silent cfg po uid symbol s e.2.1 p hsb h2] at ht
          exact absurd ht (List.not_mem_nil t)
    · rintro p hp hs
      rw [hstep, hp]
      exact iterStep_long_noclose cfg po uid symbol s e.2.1 p hs
    · intro hp hb hq hn
      rw [hstep, hp]
      rw [iterStep_none_open cfg po uid symbol s e.2.1 hb hq hn]
      refine ⟨rfl, ?_, rfl⟩
      intro t ht
      have hts := List.mem_singleton.mp ht
      subst hts
      exact mkTrade_side cfg po uid symbol "BUY" "Buy" e.2.1.price e.2.1.qty e.2.1.now
    · rintro p hp hs hn hq
      rw [hstep, hp]
      rw [iterStep_long_close cfg po uid symbol s e.2.1 p hs hn hq]
      refine ⟨rfl, ?_, rfl⟩
      intro t ht
      have hts := List.mem_singleton.mp ht
      subst hts
      exact mkTrade_side cfg po uid symbol "SELL" "Sell" e.2.1.price p.qty e.2.1.now
  · intro pm inp sym2 hne
    unfold applyStepToPositions
    exact Function.update_noteq hne _ pm

/-- Witness for C2: a concrete OPEN transition appends exactly one
trade, and a transition leaves the positions of other symbols
untouched. -/
theorem c2_position_invariant_witness :
    (iterStep sampleCfg samplePo 1 "BTCUSDT" sampleSettings
      { buyOk := true, sellOk := false, price := 50, qty := 1, now := 0 }
      none).trades.length = 1 ∧
    applyStepToPositions sampleCfg samplePo 1 "BTCUSDT" sampleSettings
      { buyOk := true, sellOk := false, price := 50, qty := 1, now := 0 }
      (fun _ => none) "ETHUSDT" = none := by
  constructor
  · exact (((c2_position_invariant sampleCfg samplePo 1 "BTCUSDT" sampleSettings
      [{ buyOk := true, sellOk := false, price := 50, qty := 1, now := 0 }]
      none).1
      (none, { buyOk := true, sellOk := false, price := 50, qty := 1, now := 0 },
        iterStep sampleCfg samplePo 1 "BTCUSDT" sampleSettings
          { buyOk := true, sellOk := false, price := 50, qty := 1, now := 0 } none)
      (List.mem_singleton.mpr rfl)).2.2.1 rfl rfl (by decide)
      (by norm_num [sampleSettings])).1
  · exact (c2_position_invariant sampleCfg samplePo 1 "BTCUSDT" sampleSettings
      [] none).2 (fun _ => none)
      { buyOk := true, sellOk := false, price := 50, qty := 1, now := 0 }
      "ETHUSDT" (by decide)

/-- C3: from the LONG state, when the CLOSE verdict (sell_ok) holds
but the stored quantity times the current price is below the
configured minimum notional, or the stored quantity is not positive,
the position is cleared to absent and exactly zero trades (and zero
orders) are emitted: the silent-clear branch of src/trading_core.py
lines 402-404. -/
theorem c3_silent_clear (cfg : StepConfig)
    (po : String → ℚ → String → Except String String) (uid : Int)
    (symbol : String) (s : Settings) (rsi : List (Option ℚ))
    (trendUp : Bool) (macdHist : ℚ) (b : Bool) (price qty now : ℚ)
    (p : Position)
    (hclose : sell_ok s rsi trendUp macdHist = true)
    (hsmall : p.qty * price < s.minNotional ∨ ¬ 0 < p.qty) :
    iterStep cfg po uid symbol s
      { buyOk := b, sellOk := sell_ok s rsi trendUp macdHist, price := price,
        qty := qty, now := now } (some p) =
      { pos := none, trades := [], orders := [] } :=
  iterStep_long_silent cfg po uid symbol s _ p hclose hsmall

/-- Witness for C3 at the spec scenario C numbers: qty 0.001 at
price 50 gives a 0.05 notional, below the minimum of 5; with an RSI
reading of 70 the CLOSE verdict holds; the position is cleared and no
trade is appended. -/
theorem c3_silent_clear_witness :
    iterStep sampleCfg samplePo 1 "BTCUSDT" sampleSettings
      { buyOk := false,
        sellOk := sell_ok sampleSettings [some 70] true 0, price := 50,
        qty := 0, now := 0 }
      (some { side := "LONG", entryPrice := 50, qty := 1/1000, ts := 0 }) =
      { pos := none, trades := [], orders := [] } :=
  c3_silent_clear sampleCfg samplePo 1 "BTCUSDT" sampleSettings [some 70]
    true 0 false 50 0 0 { side := "LONG", entryPrice := 50, qty := 1/1000, ts := 0 }
    (by decide) (Or.inl (by norm_num [sampleSettings]))

/-- C4: when the RSI series has fewer than RSI_CONFIRM values, or the
last RSI_CONFIRM readings include a missing (NaN) one, both
confirmations are false, hence the OPEN verdict is false and the
cycle takes no OPEN transition from the flat state. -/
theorem c4_rsi_guard (s : Settings) (rsi : List (Option ℚ))
    (trendUp : Bool) (macdHist : ℚ) (cfg : StepConfig)
    (po : String → ℚ → String → Except String String) (uid : Int)
    (symbol : String) (price qty now : ℚ)
    (h : rsi.length < s.rsiConfirm ∨ ∃ x ∈ takeLast s.rsiConfirm rsi, x = none) :
    rsi_confirm_buy rsi s.rsiConfirm s.rsiOversold = false ∧
    rsi_confirm_sell rsi s.rsiConfirm s.rsiOverbought = false ∧
    buy_ok s rsi trendUp macdHist = false ∧
    iterStep cfg po uid symbol s
      { buyOk := buy_ok s rsi trendUp macdHist,
        sellOk := sell_ok s rsi trendUp macdHist,
        price := price, qty := qty, now := now } none =
      { pos := none, trades := [], orders := [] } := by
  have hcb := rsi_confirm_buy_false_of rsi s.rsiConfirm s.rsiOversold h
  have hcs := rsi_confirm_sell_false_of rsi s.rsiConfirm s.rsiOverbought h
  have hbuy : buy_ok s rsi trendUp macdHist = false := by
    unfold buy_ok
    rw [hcb]
    rfl
  refine ⟨hcb, hcs, hbuy, ?_⟩
  apply iterStep_none_noopen
  rintro ⟨hb2, -, -⟩
  exact Bool.false_ne_true (hbuy.symm.trans hb2)

/-- Witness for C4: a single missing RSI reading with a confirmation
window of 1 suppresses both confirmations and the OPEN transition. -/
theorem c4_rsi_guard_witness :
    rsi_confirm_buy [none] 1 (35 : ℚ) = false ∧
    rsi_confirm_sell [none] 1 (65 : ℚ) = false ∧
    buy_ok sampleSettings [none] true 1 = false ∧
    iterStep sampleCfg samplePo 1 "BTCUSDT" sampleSettings
      { buyOk := buy_ok sampleSettings [none] true 1,
        sellOk := sell_ok sampleSettings [none] true 1,
        price := 50, qty := 1, now := 0 } none =
      { pos := none, trades := [], orders := [] } :=
  c4_rsi_guard sampleSettings [none] true 1 sampleCfg samplePo 1 "BTCUSDT"
    50 1 0 (by decide)

/-- C6: order sizing.  A configured positive fixed USD size is capped
at the balance exactly when the balance is known and positive and is
used as-is otherwise; with no fixed size the notional is the
configured percentage of the balance, and 0 when the balance is zero
or unknown; the quantity is the notional over the price floored
(never rounded up) to the configured precision, with
floor(1.23456, 2) = 1.23; and a zero quantity or a notional below the
minimum suppresses the OPEN transition entirely. -/
theorem c6_order_sizing (s : Settings) (balOpt : Option ℚ)
    (b price q now : ℚ) (prec : Nat) (cfg : StepConfig)
    (po : String → ℚ → String → Except String String) (uid : Int)
    (symbol : String) (buyOk2 sellOk2 : Bool) (qty : ℚ) :
    (0 < s.orderSizeUsd → balOpt = some b → 0 < b →
      order_usd s balOpt = min s.orderSizeUsd b) ∧
    (0 < s.orderSizeUsd → usdtBalance balOpt ≤ 0 →
      order_usd s balOpt = s.orderSizeUsd) ∧
    (s.orderSizeUsd ≤ 0 → balOpt = some b → 0 < b →
      order_usd s balOpt = b * (s.orderPercent / 100)) ∧
    (s.orderSizeUsd ≤ 0 → usdtBalance balOpt ≤ 0 → order_usd s balOpt = 0) ∧
    (sized_qty s balOpt price = floor_qty (raw_qty s balOpt price) s.qtyPrecision) ∧
    (0 < price → raw_qty s balOpt price = order_usd s balOpt / price) ∧
    (0 ≤ q → floor_qty q prec ≤ q) ∧
    (floor_qty (123456 / 100000 : ℚ) 2 = 123 / 100) ∧
    (qty = 0 ∨ qty * price < s.minNotional →
      iterStep cfg po uid symbol s
        { buyOk := buyOk2, sellOk := sellOk2, price := price, qty := qty,
          now := now } none =
        { pos := none, trades := [], orders := [] }) := by
  refine ⟨?_, ?_, ?_, ?_, rfl, ?_, ?_, ?_, ?_⟩
  · intro h1 hb hbp
    simp [order_usd, usdtBalance, hb, h1, hbp]
  · intro h1 h2
    simp [order_usd, h1, not_lt.mpr h2]
  · intro h1 hb hbp
    simp [order_usd, usdtBalance, hb, not_lt.mpr h1, hbp]
  · intro h1 h2
    simp [order_usd, not_lt.mpr h1, not_lt.mpr h2]
  · intro hp
    unfold raw_qty
    rw [if_pos hp]
  · intro hq
    unfold floor_qty
    by_cases h0 : q ≤ 0
    · rw [if_pos h0]
      exact le_antisymm h0 hq ▸ le_refl q
    · rw [if_neg h0]
      have hf : (0 : ℚ) < (10 : ℚ) ^ prec := by positivity
      have h2 : ((Int.floor (q * (10 : ℚ) ^ prec) : ℤ) : ℚ) / (10 : ℚ) ^ prec ≤
          (q * (10 : ℚ) ^ prec) / (10 : ℚ) ^ prec :=
        (div_le_div_iff_of_pos_right hf).mpr (Int.floor_le _)
      rwa [mul_div_cancel_right₀ q (ne_of_gt hf)] at h2
  · unfold floor_qty
    rw [if_neg (by norm_num)]
    norm_num
  · intro h9
    apply iterStep_none_noopen
    rintro ⟨-, hq2, hn2⟩
    have hq3 : 0 < qty := hq2
    have hn3 : s.minNotional ≤ qty * price := hn2
    rcases h9 with h9 | h9
    · rw [h9] at hq3
      exact lt_irrefl 0 hq3
    · exact absurd hn3 (not_le.mpr h9)

/-- Witness for C6 at concrete numbers. -/
theorem c6_order_sizing_witness :
    order_usd sampleSettingsFixed (some 50) = min 10 50 ∧
    order_usd sampleSettings none = 0 ∧
    floor_qty (123456 / 100000 : ℚ) 2 = 123 / 100 ∧
    floor_qty (1/2) 6 ≤ 1/2 ∧
    iterStep sampleCfg samplePo 1 "BTCUSDT" sampleSettings
      { buyOk := true, sellOk := false, price := 50, qty := 0, now := 0 }
      none = { pos := none, trades := [], orders := [] } := by
  refine ⟨?_, ?_, ?_, ?_, ?_⟩
  · exact (c6_order_sizing sampleSettingsFixed (some 50) 50 0 0 0 0 sampleCfg
      samplePo 1 "BTCUSDT" true true 0).1 (by decide) rfl (by decide)
  · exact (c6_order_sizing sampleSettings none 0 0 0 0 0 sampleCfg
      samplePo 1 "BTCUSDT" true true 0).2.2.2.1 (by decide) (by decide)
  · exact (c6_order_sizing sampleSettings none 0 0 0 0 0 sampleCfg
      samplePo 1 "BTCUSDT" true true 0).2.2.2.2.2.2.2.1
  · exact (c6_order_sizing sampleSettings none 0 0 (1/2) 0 6 sampleCfg
      samplePo 1 "BTCUSDT" true true 0).2.2.2.2.2.2.1 (by norm_num)
  · exact (c6_order_sizing sampleSettings none 0 50 0 0 0 sampleCfg
      samplePo 1 "BTCUSDT" true false 0).2.2.2.2.2.2.2.2 (Or.inl rfl)

/-- Modelled from the spec: successive close-price deltas (the
indicator library's diff of the close series, first NaN dropped).
The RSI itself is computed by the external ta library
(ta.momentum.RSIIndicator), which is not part of src/; src/
trading_core.py lines 197-205 only delegate to it, so the RSI
pipeline below follows the contract stated by the spec. -/
def diffs : List ℚ → List ℚ
  | [] => []
  | [_] => []
  | a :: b :: t => (b - a) :: diffs (b :: t)

/-- Modelled from the spec: recursive exponential smoothing seeded by
the first value (adjust=False), y = (1-alpha)*y + alpha*x; 0 on an
empty series. -/
def ewmLast (alpha : ℚ) : List ℚ → ℚ
  | [] => 0
  | x :: xs => xs.foldl (fun y v => (1 - alpha) * y + alpha * v) x

/-- Modelled from the spec: Wilder-style average gain over the RSI
window (exponential smoothing with alpha = 1/period of the positive
parts of the deltas). -/
def rsiAvgGain (period : Nat) (close : List ℚ) : ℚ :=
  ewmLast (1 / (period : ℚ)) ((diffs close).map (fun d => max d 0))

/-- Modelled from the spec: Wilder-style average loss over the RSI
window (exponential smoothing with alpha = 1/period of the negated
negative parts of the deltas). -/
def rsiAvgLoss (period : Nat) (close : List ℚ) : ℚ :=
  ewmLast (1 / (period : ℚ)) ((diffs close).map (fun d => max (-d) 0))

/-- Modelled from the spec: the RSI of the latest point, none (NaN)
when fewer points than the window exist, and with the avg_loss = 0
case handled by an explicit branch yielding exactly 100, otherwise
100 - 100/(1 + avg_gain/avg_loss). -/
def rsiLast (period : Nat) (close : List ℚ) : Option ℚ :=
  if close.length < period then none
  else
    some (if rsiAvgLoss period close = 0 then 100
      else 100 - 100 / (1 + rsiAvgGain period close / rsiAvgLoss period close))

lemma ewmLast_all_zero (alpha : ℚ) (l : List ℚ) (h : ∀ x ∈ l, x = 0) :
    ewmLast alpha l = 0 := by
  cases l with
  | nil => rfl
  | cons x xs =>
    have hx : x = 0 := h x (List.mem_cons_self x xs)
    have hxs : ∀ v ∈ xs, v = 0 := fun v hv => h v (List.mem_cons_of_mem x hv)
    rw [ewmLast, hx]
    clear hx h
    induction xs with
    | nil => rfl
    | cons v t ih =>
      have hv : v = 0 := hxs v (List.mem_cons_self v t)
      rw [List.foldl_cons, hv]
      have : (1 - alpha) * 0 + alpha * 0 = 0 := by ring
      rw [this]
      exact ih (fun w hw => hxs w (List.mem_cons_of_mem v hw))

lemma diffs_pos : ∀ (close : List ℚ), List.Chain' (· < ·) close →
    ∀ d ∈ diffs close, 0 < d
  | [], _, d, hd => by cases hd
  | [_], _, d, hd => by cases hd
  | a :: b :: t, h, d, hd => by
    rw [diffs] at hd
    rcases List.mem_cons.mp hd with h1 | h2
    · subst h1
      exact sub_pos.mpr (List.chain'_cons.mp h).1
    · exact diffs_pos (b :: t) (List.chain'_cons.mp h).2 d h2

/-- C5: for every close-price series that is strictly monotonically
increasing and long enough that the latest point has a full RSI
window, the average loss is exactly 0 and the RSI of the latest
point is exactly 100, produced by the explicit avg_loss = 0 branch
(in the rational model no NaN or infinite value can arise). -/
theorem c5_rsi_monotone_100 (period : Nat) (close : List ℚ)
    (hlen : period + 1 ≤ close.length)
    (hmono : List.Chain' (· < ·) close) :
    rsiAvgLoss period close = 0 ∧ rsiLast period close = some 100 := by
  have hloss : rsiAvgLoss period close = 0 := by
    unfold rsiAvgLoss
    apply ewmLast_all_zero
    intro x hx
    rcases List.mem_map.mp hx with ⟨d, hd, hdx⟩
    have hdp := diffs_pos close hmono d hd
    rw [← hdx]
    have hneg : -d ≤ 0 := by linarith
    exact max_eq_right hneg
  refine ⟨hloss, ?_⟩
  unfold rsiLast
  rw [if_neg (not_lt.mpr (le_trans (Nat.le_succ period) hlen)), if_pos hloss]

/-- Witness for C5 at period 1 and the series [1, 2]. -/
theorem c5_rsi_monotone_100_witness :
    rsiAvgLoss 1 [(1 : ℚ), 2] = 0 ∧ rsiLast 1 [(1 : ℚ), 2] = some 100 :=
  c5_rsi_monotone_100 1 [(1 : ℚ), 2] (by decide)
    (List.chain'_cons.mpr ⟨by norm_num, List.chain'_singleton 2⟩)

lemma mkTrade_dryRun (cfg : StepConfig)
    (po : String → ℚ → String → Except String String) (uid : Int)
    (symbol rs ps : String) (price qty now : ℚ)
    (hdry : cfg.dryRun = true) :
    mkTrade cfg po uid symbol rs ps price qty now =
      { userId := uid, symbol := symbol, side := rs, price := price,
        qty := qty, pnl := 0, ts := now, orderResp := none } := by
  unfold mkTrade
  rw [if_neg]
  intro hcond
  rw [Bool.and_eq_true] at hcond
  rcases hcond with ⟨h1, -⟩
  rw [hdry] at h1
  exact Bool.false_ne_true h1

lemma ordersFor_dryRun (cfg : StepConfig) (ps : String) (qty : ℚ)
    (symbol : String) (hdry : cfg.dryRun = true) :
    ordersFor cfg ps qty symbol = [] := by
  apply (ordersFor_eq_nil_iff cfg ps qty symbol).mpr
  rw [hdry]
  rfl

/-- C9: in dry-run mode no order-placement call is issued by any
transition, while an OPEN or a non-silent CLOSE transition still
appends exactly its one trade record with an absent order response;
and in every mode a trade record's order response is absent exactly
when no order-placement call was issued, so the absent response is
the marker that no real execution occurred. -/
theorem c9_dry_run (cfg : StepConfig)
    (po : String → ℚ → String → Except String String) (uid : Int)
    (symbol : String) (s : Settings) (inp : StepInput)
    (pos : Option Position) (p : Position) :
    (cfg.dryRun = true → (iterStep cfg po uid symbol s inp pos).orders = []) ∧
    (cfg.dryRun = true → pos = none → inp.buyOk = true → 0 < inp.qty →
      s.minNotional ≤ inp.qty * inp.price →
      (iterStep cfg po uid symbol s inp pos).trades =
        [{ userId := uid, symbol := symbol, side := "BUY", price := inp.price,
           qty := inp.qty, pnl := 0, ts := inp.now, orderResp := none }]) ∧
    (cfg.dryRun = true → pos = some p → inp.sellOk = true →
      s.minNotional ≤ p.qty * inp.price → 0 < p.qty →
      (iterStep cfg po uid symbol s inp pos).trades =
        [{ userId := uid, symbol := symbol, side := "SELL", price := inp.price,
           qty := p.qty, pnl := 0, ts := inp.now, orderResp := none }]) ∧
    (∀ t ∈ (iterStep cfg po uid symbol s inp pos).trades,
      (t.orderResp = none ↔ (iterStep cfg po uid symbol s inp pos).orders = [])) := by
  refine ⟨?_, ?_, ?_, ?_⟩
  · intro hdry
    cases pos with
    | none =>
      by_cases hg : inp.buyOk = true ∧ 0 < inp.qty ∧
          s.minNotional ≤ inp.qty * inp.price
      · rw [iterStep_none_open cfg po uid symbol s inp hg.1 hg.2.1 hg.2.2]
        exact ordersFor_dryRun cfg "Buy" inp.qty symbol hdry
      · rw [iterStep_none_noopen cfg po uid symbol s inp hg]
    | some q =>
      cases hsb : inp.sellOk with
      | false => rw [iterStep_long_noclose cfg po uid symbol s inp q hsb]
      | true =>
        by_cases hg : s.minNotional ≤ q.qty * inp.price ∧ 0 < q.qty
        · rw [iterStep_long_close cfg po uid symbol s inp q hsb hg.1 hg.2]
          exact ordersFor_dryRun cfg "Sell" q.qty symbol hdry
        · have h2 : q.qty * inp.price < s.minNotional ∨ ¬ 0 < q.qty := by
            rcases not_and_or.mp hg with h | h
            · exact Or.inl (not_le.mp h)
            · exact Or.inr h
          rw [iterStep_long_silent cfg po uid symbol s inp q hsb h2]
  · intro hdry hpos hb hq hn
    subst hpos
    rw [iterStep_none_open cfg po uid symbol s inp hb hq hn]
    rw [mkTrade_dryRun cfg po uid symbol "BUY" "Buy" inp.price inp.qty inp.now hdry]
  · intro hdry hpos hs hn hq
    subst hpos
    rw [iterStep_long_close cfg po uid symbol s inp p hs hn hq]
    rw [mkTrade_dryRun cfg po uid symbol "SELL" "Sell" inp.price p.qty inp.now hdry]
  · intro t ht
    cases pos with
    | none =>
      by_cases hg : inp.buyOk = true ∧ 0 < inp.qty ∧
          s.minNotional ≤ inp.qty * inp.price
      · rw [iterStep_none_open cfg po uid symbol s inp hg.1 hg.2.1 hg.2.2] at ht ⊢
        have hts := List.mem_singleton.mp ht
        subst hts
        rw [mkTrade_orderResp_none_iff, ordersFor_eq_nil_iff]
      · rw [iterStep_none_noopen cfg po uid symbol s inp hg] at ht
        exact absurd ht (List.not_mem_nil t)
    | some q =>
      cases hsb : inp.sellOk with
      | false =>
        rw [iterStep_long_noclose cfg po uid symbol s inp q hsb] at ht
        exact absurd ht (List.not_mem_nil t)
      | true =>
        by_cases hg : s.minNotional ≤ q.qty * inp.price ∧ 0 < q.qty
        · rw [iterStep_long_close cfg po uid symbol s inp q hsb hg.1 hg.2] at ht ⊢
          have hts := List.mem_singleton.mp ht
          subst hts
          rw [mkTrade_orderResp_none_iff, ordersFor_eq_nil_iff]
        · have h2 : q.qty * inp.price < s.minNotional ∨ ¬ 0 < q.qty := by
            rcases not_and_or.mp hg with h | h
            · exact Or.inl (not_le.mp h)
            · exact Or.inr h
          rw [iterStep_long_silent cfg po uid symbol s inp q hsb h2] at ht
          exact absurd ht (List.not_mem_nil t)

/-- Witness for C9: a concrete dry-run OPEN transition issues no
order and still appends its one marker-carrying BUY record. -/
theorem c9_dry_run_witness :
    (iterStep sampleCfg samplePo 1 "BTCUSDT" sampleSettings
      { buyOk := true, sellOk := false, price := 50, qty := 1, now := 0 }
      none).orders = [] ∧
    (iterStep sampleCfg samplePo 1 "BTCUSDT" sampleSettings
      { buyOk := true, sellOk := false, price := 50, qty := 1, now := 0 }
      none).trades =
      [{ userId := 1, symbol := "BTCUSDT", side := "BUY", price := 50,
         qty := 1, pnl := 0, ts := 0, orderResp := none }] := by
  constructor
  · exact (c9_dry_run sampleCfg samplePo 1 "BTCUSDT" sampleSettings
      { buyOk := true, sellOk := false, price := 50, qty := 1, now := 0 }
      none { side := "LONG", entryPrice := 0, qty := 0, ts := 0 }).1 rfl
  · exact (c9_dry_run sampleCfg samplePo 1 "BTCUSDT" sampleSettings
      { buyOk := true, sellOk := false, price := 50, qty := 1, now := 0 }
      none { side := "LONG", entryPrice := 0, qty := 0, ts := 0 }).2.1 rfl rfl
      rfl (by decide) (by norm_num [sampleSettings])

/-- The character class kept by the regex sub of src/trading_core.py
line 120: uppercase ASCII letters and digits. -/
def symChar (c : Char) : Bool := c.isUpper || c.isDigit

/-- Python str.strip (ASCII model): drop leading and trailing
whitespace. -/
def pyStrip (cs : List Char) : List Char :=
  ((cs.dropWhile Char.isWhitespace).reverse.dropWhile Char.isWhitespace).reverse

/-- Embeds normalize_symbol, src/trading_core.py lines 121-126: a
falsy input maps to the empty string; otherwise upper-case, strip,
and remove every character outside A-Z0-9 (ASCII model of the
Python unicode string operations). -/
def normalize_symbol (sym : String) : String :=
  if sym = "" then ""
  else String.mk ((pyStrip (sym.data.map Char.toUpper)).filter symChar)

/-- Spec-side formulation of normalization: upper-case the string and
strip all non-alphanumeric characters. -/
def specNormalize (sym : String) : String :=
  String.mk ((sym.data.map Char.toUpper).filter symChar)

/-- Embeds the dedupe helper uniq of src/trading_core.py lines
178-185: keep first occurrences, preserving order. -/
def pyUniq (seq : List String) : List String :=
  seq.foldl (fun acc x => if x ∈ acc then acc else acc ++ [x]) []

/-- Embeds validate_symbols_public, src/trading_core.py lines
129-186.  The two lookup paths (client.get_symbol_info and the
public instruments-info endpoint, both wrapped in try/except) are
modelled as one boolean collaborator ok, the spec's
ValidateSymbolPublic capability: ok ns is the combined best-effort
answer for the normalized symbol ns.  Entries with an empty
normalization are skipped; both outputs are deduped preserving
order. -/
def validateStep (ok : String → Bool) (acc : List String × List String)
    (s : String) : List String × List String :=
  if normalize_symbol s = "" then acc
  else if ok (normalize_symbol s) then (acc.1 ++ [normalize_symbol s], acc.2)
  else (acc.1, acc.2 ++ [normalize_symbol s])

def validate_symbols_public (ok : String → Bool) (symbols : List String) :
    List String × List String :=
  (pyUniq (symbols.foldl (validateStep ok) ([], [])).1,
   pyUniq (symbols.foldl (validateStep ok) ([], [])).2)

/-- Embeds lines 263-265 of src/trading_core.py: normalize the raw
per-user symbols, drop empty results, and fall back to the
environment list when nothing is left. -/
def normalizedSymbols (envSymbols userSymbols : List String) : List String :=
  if (userSymbols.map normalize_symbol).filter (fun x => !(x == "")) = []
  then envSymbols
  else (userSymbols.map normalize_symbol).filter (fun x => !(x == ""))

/-- Embeds lines 268-269 of src/trading_core.py: validate the
normalized working set and use the validated list, falling back to
the whole normalized list when no symbol validates. -/
def resolveSymbols (ok : String → Bool) (envSymbols userSymbols : List String) :
    List String :=
  if (validate_symbols_public ok (normalizedSymbols envSymbols userSymbols)).1 = []
  then normalizedSymbols envSymbols userSymbols
  else (validate_symbols_public ok (normalizedSymbols envSymbols userSymbols)).1

lemma filter_dropWhile_of (p q : Char → Bool)
    (h : ∀ c, q c = true → p c = false) :
    ∀ cs : List Char, (cs.dropWhile q).filter p = cs.filter p := by
  intro cs
  induction cs with
  | nil => rfl
  | cons c t ih =>
    by_cases hq : q c = true
    · rw [List.dropWhile_cons]
      rw [hq]
      simp only [if_true]
      rw [ih, List.filter_cons, h c hq]
      simp
    · rw [List.dropWhile_cons]
      rw [Bool.eq_false_iff.mpr hq]
      simp

lemma filter_pyStrip (p : Char → Bool)
    (h : ∀ c, Char.isWhitespace c = true → p c = false) (cs : List Char) :
    (pyStrip cs).filter p = cs.filter p := by
  unfold pyStrip
  rw [List.filter_reverse, filter_dropWhile_of p Char.isWhitespace h,
    List.filter_reverse, List.reverse_reverse,
    filter_dropWhile_of p Char.isWhitespace h]

lemma whitespace_not_symChar (c : Char) (h : Char.isWhitespace c = true) :
    symChar c = false := by
  unfold Char.isWhitespace at h
  simp only [Bool.or_eq_true, decide_eq_true_eq] at h
  rcases h with ((rfl | rfl) | rfl) | rfl <;> decide

lemma pyUniq_fold_mem : ∀ (l acc : List String) (x : String),
    x ∈ l.foldl (fun acc x => if x ∈ acc then acc else acc ++ [x]) acc →
    x ∈ acc ∨ x ∈ l := by
  intro l
  induction l with
  | nil =>
    intro acc x hx
    exact Or.inl hx
  | cons y t ih =>
    intro acc x hx
    rw [List.foldl_cons] at hx
    rcases ih _ x hx with h | h
    · by_cases hy : y ∈ acc
      · rw [if_pos hy] at h
        exact Or.inl h
      · rw [if_neg hy] at h
        rcases List.mem_append.mp h with h | h
        · exact Or.inl h
        · rw [List.mem_singleton.mp h]
          exact Or.inr (List.mem_cons_self y t)
    · exact Or.inr (List.mem_cons_of_mem y h)

lemma mem_of_mem_pyUniq (l : List String) (x : String) (h : x ∈ pyUniq l) :
    x ∈ l := by
  unfold pyUniq at h
  rcases pyUniq_fold_mem l [] x h with h | h
  · exact absurd h (List.not_mem_nil x)
  · exact h

lemma validate_fold_ok (ok : String → Bool) :
    ∀ (syms : List String) (acc : List String × List String),
    (∀ y ∈ acc.1, ok y = true) →
    ∀ x ∈ (syms.foldl (validateStep ok) acc).1, ok x = true := by
  intro syms
  induction syms with
  | nil =>
    intro acc hacc x hx
    exact hacc x hx
  | cons s t ih =>
    intro acc hacc x hx
    rw [List.foldl_cons] at hx
    refine ih (validateStep ok acc s) ?_ x hx
    intro y hy
    unfold validateStep at hy
    by_cases hns : normalize_symbol s = ""
    · rw [if_pos hns] at hy
      exact hacc y hy
    · rw [if_neg hns] at hy
      by_cases hok : ok (normalize_symbol s) = true
      · rw [if_pos hok] at hy
        rcases List.mem_append.mp hy with hy | hy
        · exact hacc y hy
        · rw [List.mem_singleton.mp hy]
          exact hok
      · rw [if_neg hok] at hy
        exact hacc y hy

lemma validate_valid_ok (ok : String → Bool) (syms : List String) :
    ∀ x ∈ (validate_symbols_public ok syms).1, ok x = true := by
  intro x hx
  unfold validate_symbols_public at hx
  exact validate_fold_ok ok syms ([], []) (fun y hy => absurd hy (List.not_mem_nil y))
    x (mem_of_mem_pyUniq _ x hx)

lemma normalize_symbol_eq_spec (sym : String) :
    normalize_symbol sym = specNormalize sym := by
  unfold normalize_symbol specNormalize
  by_cases hs : sym = ""
  · subst hs
    rfl
  · rw [if_neg hs]
    exact congrArg String.mk
      (filter_pyStrip symChar whitespace_not_symChar (sym.data.map Char.toUpper))

/-- C8: symbol resolution.  Every raw entry is normalized by
upper-casing and stripping all non-alphanumeric characters (the
code-side normalize_symbol agrees with the spec-side formulation on
every input); when at least one symbol validates, every member of the
working set passed validation (failures are excluded); and when every
symbol fails validation, the cycle proceeds with the full
normalized-but-unvalidated list instead of halting. -/
theorem c8_symbol_resolution (ok : String → Bool)
    (envSymbols userSymbols : List String) (sym : String) :
    (normalize_symbol sym = specNormalize sym) ∧
    ((validate_symbols_public ok (normalizedSymbols envSymbols userSymbols)).1 ≠ [] →
      ∀ x ∈ resolveSymbols ok envSymbols userSymbols, ok x = true) ∧
    ((validate_symbols_public ok (normalizedSymbols envSymbols userSymbols)).1 = [] →
      resolveSymbols ok envSymbols userSymbols =
        normalizedSymbols envSymbols userSymbols) := by
  refine ⟨normalize_symbol_eq_spec sym, ?_, ?_⟩
  · intro hne x hx
    unfold resolveSymbols at hx
    rw [if_neg hne] at hx
    exact validate_valid_ok ok _ x hx
  · intro he
    unfold resolveSymbols
    rw [if_pos he]

/-- Witness for C8: the mixed-case entry btc-usdt normalizes to
BTCUSDT; with a validator accepting only BTCUSDT the working set
contains only validated symbols; with a validator rejecting
everything the working set falls back to the normalized list. -/
theorem c8_symbol_resolution_witness :
    normalize_symbol "btc-usdt " = specNormalize "btc-usdt " ∧
    (fun x => x == "BTCUSDT") "BTCUSDT" = true ∧
    resolveSymbols (fun _ => false) ["BTCUSDT"] ["btc-usdt", "zz!"] =
      normalizedSymbols ["BTCUSDT"] ["btc-usdt", "zz!"] := by
  refine ⟨(c8_symbol_resolution (fun x => x == "BTCUSDT") ["BTCUSDT"]
    ["btc-usdt", "zz!"] "btc-usdt ").1, ?_, ?_⟩
  · exact (c8_symbol_resolution (fun x => x == "BTCUSDT") ["BTCUSDT"]
      ["btc-usdt", "zz!"] "x").2.1 (by decide) "BTCUSDT" (by decide)
  · exact (c8_symbol_resolution (fun _ => false) ["BTCUSDT"]
      ["btc-usdt", "zz!"] "x").2.2 (by decide)

/-- A stored user record at the interface of db_json.load_users, as
consumed by src/trading_core.py lines 214-245: subscription expiry
(none when the field is absent or null, some "" for an empty string,
both falsy in Python), the base64-encoded credentials ("" when
missing) and the per-symbol positions dictionary. -/
structure UserRec where
  subUntil : Option String
  apiKeyEnc : String
  apiSecretEnc : String
  positions : PosMap

/-- Embeds the eligibility ladder of src/trading_core.py lines
220-245: skip on a falsy sub_until; skip when
datetime.fromisoformat raises (parseIso = none) or the subscription
is expired; skip when either encoded key is empty; skip when base64
decoding raises for either key (the except block blanks both) or a
key decodes to the empty string.  Returns the decoded credentials
when the user is eligible. -/
def userEligible (parseIso : String → Option ℚ) (now : ℚ)
    (decodeKey : String → Option String) (u : UserRec) :
    Option (String × String) :=
  Option.bind u.subUntil (fun sub =>
    if sub = "" then none
    else Option.bind (parseIso sub) (fun t =>
      if t < now then none
      else if u.apiKeyEnc = "" ∨ u.apiSecretEnc = "" then none
      else Option.bind (decodeKey u.apiKeyEnc) (fun k =>
        Option.bind (decodeKey u.apiSecretEnc) (fun sec =>
          if k = "" ∨ sec = "" then none else some (k, sec)))))

/-- Embeds the per-symbol loop of src/trading_core.py lines 273-411:
each symbol's unit of work runs inside try/except; an exception
(error) is logged and the loop continues with the next symbol and the
prior state.  Returns the final positions, the concatenated appended
trades, and the list of symbols attempted. -/
def symbolLoop (work : String → PosMap → Except String (PosMap × List Trade)) :
    List String → PosMap → PosMap × List Trade × List String
  | [], pm => (pm, [], [])
  | sym :: rest, pm =>
    match work sym pm with
    | Except.ok r =>
      ((symbolLoop work rest r.1).1,
        r.2 ++ (symbolLoop work rest r.1).2.1,
        sym :: (symbolLoop work rest r.1).2.2)
    | Except.error _ =>
      ((symbolLoop work rest pm).1,
        (symbolLoop work rest pm).2.1,
        sym :: (symbolLoop work rest pm).2.2)

/-- One user of the iteration: the stored record, the resolved symbol
working set, and that user's per-symbol unit of work (candle fetch,
indicators, signal, transition), which may raise. -/
structure UserUnit where
  user : UserRec
  syms : List String
  work : String → PosMap → Except String (PosMap × List Trade)

/-- Embeds the per-user body of run_trading_iteration: an ineligible
user is skipped with nothing appended and positions untouched; an
eligible user runs the per-symbol loop. -/
def processUserUnit (parseIso : String → Option ℚ) (now : ℚ)
    (decodeKey : String → Option String) (uu : UserUnit) :
    PosMap × List Trade × List String :=
  (userEligible parseIso now decodeKey uu.user).elim
    (uu.user.positions, [], [])
    (fun _ => symbolLoop uu.work uu.syms uu.user.positions)

/-- Embeds the user loop of run_trading_iteration (line 214): every
user in the snapshot is processed in order. -/
def runIteration (parseIso : String → Option ℚ) (now : ℚ)
    (decodeKey : String → Option String) (units : List UserUnit) :
    List (PosMap × List Trade × List String) :=
  units.map (processUserUnit parseIso now decodeKey)

/-- Embeds main_loop, src/trading_core.py lines 439-444: each cycle
runs run_trading_iteration inside try/except; both outcomes fall
through to the sleep, so exactly one cycle completes per outcome and
an exception never exits the loop. -/
def main_loop_cycles (iters : List (Except String Unit)) : Nat :=
  iters.foldl (fun n r =>
    match r with
    | Except.ok _ => n + 1
    | Except.error _ => n + 1) 0

lemma symbolLoop_attempts (work : String → PosMap → Except String (PosMap × List Trade)) :
    ∀ (syms : List String) (pm : PosMap), (symbolLoop work syms pm).2.2 = syms := by
  intro syms
  induction syms with
  | nil => intro pm; rfl
  | cons sym rest ih =>
    intro pm
    cases hw : work sym pm with
    | ok r =>
      simp only [symbolLoop, hw]
      rw [ih r.1]
    | error e =>
      simp only [symbolLoop, hw]
      rw [ih pm]

lemma main_loop_cycles_go : ∀ (iters : List (Except String Unit)) (n : Nat),
    iters.foldl (fun n r =>
      match r with
      | Except.ok _ => n + 1
      | Except.error _ => n + 1) n = n + iters.length := by
  intro iters
  induction iters with
  | nil => intro n; simp
  | cons r t ih =>
    intro n
    rw [List.foldl_cons]
    cases r with
    | ok u =>
      rw [ih (n + 1)]
      simp [List.length_cons]
      omega
    | error e =>
      rw [ih (n + 1)]
      simp [List.length_cons]
      omega

/-- C7: failure isolation.  Every symbol of a user's working set is
attempted no matter which units of work raise; a symbol whose unit of
work raises contributes nothing and the remaining symbols are
processed exactly as if it had been skipped; replacing one user's
unit (for example by one whose candle fetch always raises) does not
change any other user's outcome in the same cycle; and the outer loop
completes exactly one cycle per iteration outcome, exception or not,
never exiting early. -/
theorem c7_failure_isolation
    (work : String → PosMap → Except String (PosMap × List Trade))
    (syms : List String) (pm : PosMap) (sym : String) (rest : List String)
    (err : String) (parseIso : String → Option ℚ) (now : ℚ)
    (decodeKey : String → Option String) (units : List UserUnit)
    (i j : Nat) (repl : UserUnit) (iters : List (Except String Unit)) :
    ((symbolLoop work syms pm).2.2 = syms) ∧
    (work sym pm = Except.error err →
      symbolLoop work (sym :: rest) pm =
        ((symbolLoop work rest pm).1, (symbolLoop work rest pm).2.1,
          sym :: (symbolLoop work rest pm).2.2)) ∧
    (¬ i = j →
      (runIteration parseIso now decodeKey (units.set i repl))[j]? =
        (runIteration parseIso now decodeKey units)[j]?) ∧
    (main_loop_cycles iters = iters.length) := by
  refine ⟨symbolLoop_attempts work syms pm, ?_, ?_, ?_⟩
  · intro hw
    rw [symbolLoop, hw]
  · intro hij
    unfold runIteration
    rw [List.getElem?_map, List.getElem?_map, List.getElem?_set_ne hij]
  · unfold main_loop_cycles
    rw [main_loop_cycles_go iters 0]
    omega

/-- A concrete user unit whose work never raises. -/
def sampleUnit : UserUnit :=
  { user := { subUntil := none, apiKeyEnc := "", apiSecretEnc := "",
              positions := fun _ => none },
    syms := [],
    work := fun _ pm => Except.ok (pm, []) }

/-- Witness for C7 with an always-raising unit of work. -/
theorem c7_failure_isolation_witness :
    ((symbolLoop (fun _ _ => Except.error "boom") ["BTCUSDT", "ETHUSDT"]
      (fun _ => none)).2.2 = ["BTCUSDT", "ETHUSDT"]) ∧
    (symbolLoop (fun _ _ => Except.error "boom") ["BTCUSDT"] (fun _ => none) =
      ((symbolLoop (fun _ _ => Except.error "boom") [] (fun _ => none)).1,
        (symbolLoop (fun _ _ => Except.error "boom") [] (fun _ => none)).2.1,
        "BTCUSDT" ::
          (symbolLoop (fun _ _ => Except.error "boom") [] (fun _ => none)).2.2)) ∧
    ((runIteration (fun _ => none) 0 some [sampleUnit, sampleUnit])[1]? =
      (runIteration (fun _ => none) 0 some [sampleUnit, sampleUnit])[1]?) ∧
    (main_loop_cycles [Except.error "down", Except.ok ()] = 2) := by
  refine ⟨?_, ?_, ?_, ?_⟩
  · exact (c7_failure_isolation (fun _ _ => Except.error "boom")
      ["BTCUSDT", "ETHUSDT"] (fun _ => none) "" [] "" (fun _ => none) 0 some
      [] 0 1 sampleUnit []).1
  · exact (c7_failure_isolation (fun _ _ => Except.error "boom")
      [] (fun _ => none) "BTCUSDT" [] "boom" (fun _ => none) 0 some
      [] 0 1 sampleUnit []).2.1 rfl
  · exact (c7_failure_isolation (fun _ _ => Except.error "boom")
      [] (fun _ => none) "" [] "" (fun _ => none) 0 some
      [sampleUnit, sampleUnit] 0 1 sampleUnit []).2.2.1 (by decide)
  · exact (c7_failure_isolation (fun _ _ => Except.error "boom")
      [] (fun _ => none) "" [] "" (fun _ => none) 0 some
      [] 0 1 sampleUnit [Except.error "down", Except.ok ()]).2.2.2

lemma userEligible_none_of_keys (parseIso : String → Option ℚ) (now : ℚ)
    (decodeKey : String → Option String) (u : UserRec)
    (hkeys : u.apiKeyEnc = "" ∨ u.apiSecretEnc = "" ∨
      decodeKey u.apiKeyEnc = none ∨ decodeKey u.apiSecretEnc = none) :
    userEligible parseIso now decodeKey u = none := by
  unfold userEligible
  cases hsu : u.subUntil with
  | none => rw [Option.none_bind]
  | some sub =>
    rw [Option.some_bind]
    by_cases he : sub = ""
    · rw [if_pos he]
    · rw [if_neg he]
      cases hp : parseIso sub with
      | none => rw [Option.none_bind]
      | some t =>
        rw [Option.some_bind]
        by_cases ht : t < now
        · rw [if_pos ht]
        · rw [if_neg ht]
          by_cases hk : u.apiKeyEnc = "" ∨ u.apiSecretEnc = ""
          · rw [if_pos hk]
          · rw [if_neg hk]
            rcases hkeys with h | h | h | h
            · exact absurd (Or.inl h) hk
            · exact absurd (Or.inr h) hk
            · rw [h, Option.none_bind]
            · cases hdk : decodeKey u.apiKeyEnc with
              | none => rw [Option.none_bind]
              | some k =>
                rw [Option.some_bind, h, Option.none_bind]

/-- C10: a user whose sub_until is absent, or whose sub_until does
not parse as an ISO timestamp, or whose API key or secret is missing
or fails base64 decoding, is skipped entirely: the (total) iteration
body returns that user's positions unchanged with zero trades
appended and zero symbols attempted. -/
theorem c10_user_skip (parseIso : String → Option ℚ) (now : ℚ)
    (decodeKey : String → Option String) (uu : UserUnit)
    (h : uu.user.subUntil = none ∨
      (∃ sub, uu.user.subUntil = some sub ∧ parseIso sub = none) ∨
      uu.user.apiKeyEnc = "" ∨ uu.user.apiSecretEnc = "" ∨
      decodeKey uu.user.apiKeyEnc = none ∨
      decodeKey uu.user.apiSecretEnc = none) :
    processUserUnit parseIso now decodeKey uu =
      (uu.user.positions, [], []) := by
  have helig : userEligible parseIso now decodeKey uu.user = none := by
    rcases h with h | ⟨sub, hsub, hparse⟩ | h | h | h | h
    · unfold userEligible
      rw [h, Option.none_bind]
    · unfold userEligible
      rw [hsub, Option.some_bind]
      by_cases he : sub = ""
      · rw [if_pos he]
      · rw [if_neg he, hparse, Option.none_bind]
    · exact userEligible_none_of_keys parseIso now decodeKey uu.user (Or.inl h)
    · exact userEligible_none_of_keys parseIso now decodeKey uu.user
        (Or.inr (Or.inl h))
    · exact userEligible_none_of_keys parseIso now decodeKey uu.user
        (Or.inr (Or.inr (Or.inl h)))
    · exact userEligible_none_of_keys parseIso now decodeKey uu.user
        (Or.inr (Or.inr (Or.inr h)))
  unfold processUserUnit
  rw [helig]
  rfl

/-- Witness for C10: a user with no sub_until is skipped with
positions untouched and no trades. -/
theorem c10_user_skip_witness :
    processUserUnit (fun _ => none) 0 some sampleUnit =
      (sampleUnit.user.positions, [], []) :=
  c10_user_skip (fun _ => none) 0 some sampleUnit (Or.inl rfl)

end JamesTrade
